import Mathlib

/-!
Verification of the validating-deserialization core of the device manager
backend: the polymorphic authentication parser, the device record parser,
the node-edge-point parser and the link parser with its content hash and
creation timestamp.  JSON values are embedded as an inductive type mirroring
the dynamic value type of the JSON layer; machine integers are modelled as
Nat or Int with explicit range conditions where they matter.
-/

namespace DeviceManager

/-- A dynamic JSON value (the external JSON layer value type).  Numbers are
modelled as integers: every number appearing in the parsing core is integral
and floating point values are outside this model.  An object is a list of
key/value fields standing for the ordered key map of the JSON layer; keys are
assumed distinct. -/
inductive Json where
  | null : Json
  | bool (b : Bool) : Json
  | num (n : Int) : Json
  | str (s : String) : Json
  | arr (xs : List Json) : Json
  | obj (fields : List (String × Json)) : Json

/-- First-match lookup of a key among the fields of an object. -/
def lookupField : List (String × Json) → String → Option Json
  | [], _ => none
  | (k, x) :: fs, key => if k = key then some x else lookupField fs key

/-- Membership test of a key among the fields of an object
(models contains_key of the key map). -/
def containsKey : List (String × Json) → String → Bool
  | [], _ => false
  | (k, _) :: fs, key => if k = key then true else containsKey fs key

/-- Value.get: field access, none on a value that is not an object. -/
def Json.get : Json → String → Option Json
  | .obj fs, key => lookupField fs key
  | _, _ => none

/-- Value.as_str. -/
def Json.as_str : Json → Option String
  | .str s => some s
  | _ => none

/-- Value.as_array. -/
def Json.as_array : Json → Option (List Json)
  | .arr xs => some xs
  | _ => none

/-- Value.as_object. -/
def Json.as_object : Json → Option (List (String × Json))
  | .obj fs => some fs
  | _ => none

/-- Value.as_i64: an integral number in the signed 64-bit range. -/
def Json.as_i64 : Json → Option Int
  | .num n => if -(2 ^ 63) ≤ n ∧ n ≤ 2 ^ 63 - 1 then some n else none
  | _ => none

/-- The single error kind of the crate (lib.rs). -/
inductive Error where
  | Custom (msg : String) : Error
deriving DecidableEq, Repr

/-- Basic authentication payload (device.rs). -/
structure BasicAuth where
  username : String
  password : String
deriving DecidableEq, Repr

/-- OAuth2 authentication payload (device.rs). -/
structure Oauth2 where
  username : String
  password : String
  grant_type : String
  auth_url : String
deriving DecidableEq, Repr

/-- Custom authentication payload with an arbitrary structured body (device.rs). -/
structure CustomAuth where
  auth_body : Json
  auth_url : String

/-- The authentication variants (device.rs). -/
inductive Auth where
  | BasicAuth (b : BasicAuth) : Auth
  | Oauth2 (o : Oauth2) : Auth
  | Custom (c : CustomAuth) : Auth

/-- BasicAuth::from_value (device.rs lines 109-123). -/
def BasicAuth.from_value (value : Json) : Except Error BasicAuth :=
  match (Json.get value "username").bind Json.as_str with
  | none => .error (.Custom "Username for Basic authentication not found")
  | some username =>
    match (Json.get value "password").bind Json.as_str with
    | none => .error (.Custom "Password for Basic authentication not found")
    | some password => .ok { username := username, password := password }

/-- Oauth2::from_value (device.rs lines 144-168). -/
def Oauth2.from_value (value : Json) : Except Error Oauth2 :=
  match (Json.get value "username").bind Json.as_str with
  | none => .error (.Custom "Username for OAuth2 authentication not found")
  | some username =>
    match (Json.get value "password").bind Json.as_str with
    | none => .error (.Custom "Password for OAuth2 authentication not found")
    | some password =>
      match (Json.get value "grant_type").bind Json.as_str with
      | none => .error (.Custom "Grant type for OAuth2 authentication not found")
      | some grant_type =>
        match (Json.get value "auth_url").bind Json.as_str with
        | none => .error (.Custom "Authentication URL for OAuth2 authentication not found")
        | some auth_url =>
          .ok { username := username, password := password,
                grant_type := grant_type, auth_url := auth_url }

/-- CustomAuth::from_value (device.rs lines 187-200). -/
def CustomAuth.from_value (value : Json) : Except Error CustomAuth :=
  match Json.get value "auth_body" with
  | none => .error (.Custom "Authentication body for Custom authentication not found")
  | some auth_body =>
    match (Json.get value "auth_url").bind Json.as_str with
    | none => .error (.Custom "Authentication URL for Custom authentication not found")
    | some auth_url => .ok { auth_body := auth_body, auth_url := auth_url }

/-- Auth::from_value (device.rs lines 67-90): variant discrimination by key
presence, in the fixed order grant_type, auth_body, username+password. -/
def Auth.from_value (value : Json) : Except Error Auth :=
  match Json.as_object value with
  | none => .error (.Custom "Auth body not valid")
  | some value_object =>
    if containsKey value_object "grant_type" then
      (Oauth2.from_value value).map Auth.Oauth2
    else if containsKey value_object "auth_body" then
      (CustomAuth.from_value value).map Auth.Custom
    else if containsKey value_object "username" && containsKey value_object "password" then
      (BasicAuth.from_value value).map Auth.BasicAuth
    else
      .error (.Custom "Not recognizable authentication type")

/-- A device record (device.rs lines 9-13). -/
structure Device where
  host : String
  port : Option Int
  auth : Auth

/-- Device::from_value (device.rs lines 24-47). -/
def Device.from_value (value : Json) : Except Error Device :=
  match (Json.get value "host").bind Json.as_str with
  | none => .error (.Custom "Host not found")
  | some host_value =>
    let port_value := (Json.get value "port").bind Json.as_i64
    match Json.get value "auth" with
    | none => .error (.Custom "Auth body not found")
    | some a =>
      match Auth.from_value a with
      | .error e => .error e
      | .ok auth_value => .ok { host := host_value, port := port_value, auth := auth_value }

/-- The value of a hexadecimal digit character, none for a non-hex character
(models per-character decoding of the uuid crate text parser). -/
def hexVal (c : Char) : Option Nat :=
  if 48 ≤ c.toNat ∧ c.toNat ≤ 57 then some (c.toNat - 48)
  else if 97 ≤ c.toNat ∧ c.toNat ≤ 102 then some (c.toNat - 87)
  else if 65 ≤ c.toNat ∧ c.toNat ≤ 70 then some (c.toNat - 55)
  else none

/-- The lowercase hexadecimal character of a digit below 16. -/
def nibbleChar (d : Nat) : Char :=
  Char.ofNat (if d < 10 then 48 + d else 87 + d)

/-- Consume exactly n hexadecimal characters, folding them big-endian onto
an accumulator; none if a character is not hexadecimal or the list is too
short. -/
def takeHexAux : Nat → Nat → List Char → Option (Nat × List Char)
  | 0, acc, cs => some (acc, cs)
  | _ + 1, _, [] => none
  | n + 1, acc, c :: cs =>
    match hexVal c with
    | none => none
    | some d => takeHexAux n (acc * 16 + d) cs

/-- Consume one expected character. -/
def expectChar (c : Char) : List Char → Option (List Char)
  | d :: cs => if d = c then some cs else none
  | [] => none

/-- The big-endian list of the n low hexadecimal characters of a value. -/
def hexChars : Nat → Nat → List Char
  | 0, _ => []
  | n + 1, v => nibbleChar (v / 16 ^ n % 16) :: hexChars n (v % 16 ^ n)

/-- Uuid::parse_str on a character list: the standard hyphenated
8-4-4-4-12 form (36 characters) or the simple form (32 hexadecimal
characters), dispatched on length as in the uuid crate; the braced and urn
encodings are not exercised by this repository and are outside the model.
The parsed UUID is its 128-bit value as a Nat. -/
def uuidParseChars (cs : List Char) : Option Nat :=
  if cs.length = 36 then
    match takeHexAux 8 0 cs with
    | none => none
    | some (a, r) =>
      match expectChar (Char.ofNat 45) r with
      | none => none
      | some r =>
        match takeHexAux 4 0 r with
        | none => none
        | some (b, r) =>
          match expectChar (Char.ofNat 45) r with
          | none => none
          | some r =>
            match takeHexAux 4 0 r with
            | none => none
            | some (c, r) =>
              match expectChar (Char.ofNat 45) r with
              | none => none
              | some r =>
                match takeHexAux 4 0 r with
                | none => none
                | some (d, r) =>
                  match expectChar (Char.ofNat 45) r with
                  | none => none
                  | some r =>
                    match takeHexAux 12 0 r with
                    | none => none
                    | some (e, r) =>
                      if r.isEmpty then
                        some ((((a * 16 ^ 4 + b) * 16 ^ 4 + c) * 16 ^ 4 + d) * 16 ^ 12 + e)
                      else none
  else if cs.length = 32 then
    match takeHexAux 32 0 cs with
    | some (v, []) => some v
    | _ => none
  else none

/-- Uuid::parse_str (uuid crate, the external UUID-text parser). -/
def Uuid.parse_str (s : String) : Option Nat :=
  uuidParseChars s.data

/-- The hyphenated lowercase rendering of a 128-bit UUID value, as produced
when a UUID is serialized back to JSON. -/
def uuidChars (u : Nat) : List Char :=
  hexChars 8 (u / 16 ^ 24) ++
    (Char.ofNat 45 :: (hexChars 4 (u / 16 ^ 20 % 16 ^ 4) ++
      (Char.ofNat 45 :: (hexChars 4 (u / 16 ^ 16 % 16 ^ 4) ++
        (Char.ofNat 45 :: (hexChars 4 (u / 16 ^ 12 % 16 ^ 4) ++
          (Char.ofNat 45 :: hexChars 12 (u % 16 ^ 12))))))))

/-- The hyphenated string form of a UUID value. -/
def uuidToString (u : Nat) : String :=
  String.mk (uuidChars u)

/-- The character of a decimal digit below 10. -/
def digitChar10 (d : Nat) : Char :=
  Char.ofNat (48 + d)

/-- The numeric value of a decimal digit character. -/
def digitVal (c : Char) : Nat :=
  c.toNat - 48

/-- Big-endian decimal characters of a number, with an explicit fuel equal
to an upper bound of the number so the recursion is structural. -/
def decCharsAux : Nat → Nat → List Char
  | 0, _ => []
  | fuel + 1, n =>
    if n < 10 then [digitChar10 n]
    else decCharsAux fuel (n / 10) ++ [digitChar10 (n % 10)]

/-- Big-endian decimal characters of a number (nonempty, no sign). -/
def decChars (n : Nat) : List Char :=
  decCharsAux (n + 1) n

/-- Left-pad a character list with zeros up to a width (never truncates). -/
def padZeros (w : Nat) (cs : List Char) : List Char :=
  List.replicate (w - cs.length) (Char.ofNat 48) ++ cs

/-- Zero-padded decimal rendering of width at least w. -/
def padDec (w : Nat) (n : Nat) : List Char :=
  padZeros w (decChars n)

/-- Greedily fold leading decimal digit characters onto an accumulator,
returning the value and the unconsumed remainder. -/
def takeNatAux (acc : Nat) : List Char → Nat × List Char
  | c :: cs =>
    if c.isDigit then takeNatAux (acc * 10 + digitVal c) cs else (acc, c :: cs)
  | [] => (acc, [])

/-- Read a decimal number: at least one leading digit, consumed greedily. -/
def takeNat (cs : List Char) : Option (Nat × List Char) :=
  match cs with
  | c :: _ => if c.isDigit then some (takeNatAux 0 cs) else none
  | [] => none

/-- Modelled from the spec: the creation timestamp of a link, an RFC 3339
date-time with local offset (chrono DateTime of the local timezone is
external library code; it is modelled by its calendar components plus the
UTC offset in minutes). -/
structure DateTimeLocal where
  year : Nat
  month : Nat
  day : Nat
  hour : Nat
  minute : Nat
  second : Nat
  nanos : Nat
  offsetMinutes : Int
deriving DecidableEq, Repr

/-- The offset suffix of an RFC 3339 rendering: a sign and zero-padded
hours and minutes. -/
def offsetChars (m : Int) : List Char :=
  (if m < 0 then Char.ofNat 45 else Char.ofNat 43) ::
    (padDec 2 (m.natAbs / 60) ++ (Char.ofNat 58 :: padDec 2 (m.natAbs % 60)))

/-- The RFC 3339 character rendering of a timestamp, with a nine-digit
fractional second field. -/
def dateChars (d : DateTimeLocal) : List Char :=
  padDec 4 d.year ++
    (Char.ofNat 45 :: (padDec 2 d.month ++
      (Char.ofNat 45 :: (padDec 2 d.day ++
        (Char.ofNat 84 :: (padDec 2 d.hour ++
          (Char.ofNat 58 :: (padDec 2 d.minute ++
            (Char.ofNat 58 :: (padDec 2 d.second ++
              (Char.ofNat 46 :: (padDec 9 d.nanos ++
                offsetChars d.offsetMinutes))))))))))))

/-- The RFC 3339 string of a timestamp (chrono serialization of the date
field). -/
def DateTimeLocal.toRfc3339 (d : DateTimeLocal) : String :=
  String.mk (dateChars d)

/-- RFC 3339 parsing of a timestamp character list (chrono deserialization
of the date field). -/
def dateParseChars (cs : List Char) : Option DateTimeLocal :=
  match takeNat cs with
  | none => none
  | some (year, r) =>
    match expectChar (Char.ofNat 45) r with
    | none => none
    | some r =>
      match takeNat r with
      | none => none
      | some (month, r) =>
        match expectChar (Char.ofNat 45) r with
        | none => none
        | some r =>
          match takeNat r with
          | none => none
          | some (day, r) =>
            match expectChar (Char.ofNat 84) r with
            | none => none
            | some r =>
              match takeNat r with
              | none => none
              | some (hour, r) =>
                match expectChar (Char.ofNat 58) r with
                | none => none
                | some r =>
                  match takeNat r with
                  | none => none
                  | some (minute, r) =>
                    match expectChar (Char.ofNat 58) r with
                    | none => none
                    | some r =>
                      match takeNat r with
                      | none => none
                      | some (second, r) =>
                        match expectChar (Char.ofNat 46) r with
                        | none => none
                        | some r =>
                          match takeNat r with
                          | none => none
                          | some (nanos, r) =>
                            match r with
                            | [] => none
                            | sign :: r =>
                              if sign = Char.ofNat 43 ∨ sign = Char.ofNat 45 then
                                match takeNat r with
                                | none => none
                                | some (oh, r) =>
                                  match expectChar (Char.ofNat 58) r with
                                  | none => none
                                  | some r =>
                                    match takeNat r with
                                    | none => none
                                    | some (om, r) =>
                                      if r.isEmpty then
                                        some { year := year, month := month, day := day,
                                               hour := hour, minute := minute, second := second,
                                               nanos := nanos,
                                               offsetMinutes :=
                                                 (if sign = Char.ofNat 45 then -1 else 1) *
                                                   ((oh * 60 + om : Nat) : Int) }
                                      else none
                              else none

/-- RFC 3339 parsing of a timestamp string. -/
def dateFromString (s : String) : Option DateTimeLocal :=
  dateParseChars s.data

/-- The big-endian decimal characters of an integer, with a minus sign when
negative. -/
def intChars (n : Int) : List Char :=
  if n < 0 then Char.ofNat 45 :: decChars n.natAbs else decChars n.natAbs

/-- The escaped rendering of one character inside a JSON string literal, as
in the compact JSON writer: quote and backslash get a backslash escape, the
common control characters get their two-character escapes, the remaining
control characters get a u-escape, anything else is written as is. -/
def escapeChar (c : Char) : List Char :=
  if c = Char.ofNat 34 then [Char.ofNat 92, Char.ofNat 34]
  else if c = Char.ofNat 92 then [Char.ofNat 92, Char.ofNat 92]
  else if c = Char.ofNat 8 then [Char.ofNat 92, Char.ofNat 98]
  else if c = Char.ofNat 9 then [Char.ofNat 92, Char.ofNat 116]
  else if c = Char.ofNat 10 then [Char.ofNat 92, Char.ofNat 110]
  else if c = Char.ofNat 12 then [Char.ofNat 92, Char.ofNat 102]
  else if c = Char.ofNat 13 then [Char.ofNat 92, Char.ofNat 114]
  else if c.toNat < 32 then
    Char.ofNat 92 :: Char.ofNat 117 :: Char.ofNat 48 :: Char.ofNat 48 ::
      [nibbleChar (c.toNat / 16), nibbleChar (c.toNat % 16)]
  else [c]

/-- The rendering of a JSON string literal, quotes included. -/
def renderStr (s : String) : List Char :=
  Char.ofNat 34 :: s.data.foldr (fun c acc => escapeChar c ++ acc) [Char.ofNat 34]

mutual

/-- The compact serialization of a JSON value to characters, modelling
to_string of the JSON layer: no whitespace, object fields in map order. -/
def Json.render : Json → List Char
  | .null => [Char.ofNat 110, Char.ofNat 117, Char.ofNat 108, Char.ofNat 108]
  | .bool true => [Char.ofNat 116, Char.ofNat 114, Char.ofNat 117, Char.ofNat 101]
  | .bool false => [Char.ofNat 102, Char.ofNat 97, Char.ofNat 108, Char.ofNat 115, Char.ofNat 101]
  | .num n => intChars n
  | .str s => renderStr s
  | .arr xs => Char.ofNat 91 :: Json.renderElems xs ++ [Char.ofNat 93]
  | .obj fs => Char.ofNat 123 :: Json.renderFields fs ++ [Char.ofNat 125]

/-- Comma-separated serialization of array elements. -/
def Json.renderElems : List Json → List Char
  | [] => []
  | x :: xs =>
    Json.render x ++ (if xs.isEmpty then [] else [Char.ofNat 44]) ++ Json.renderElems xs

/-- Comma-separated serialization of object fields. -/
def Json.renderFields : List (String × Json) → List Char
  | [] => []
  | (k, x) :: fs =>
    renderStr k ++ Char.ofNat 58 :: Json.render x ++
      (if fs.isEmpty then [] else [Char.ofNat 44]) ++ Json.renderFields fs

end

/-- to_string of the JSON layer: the compact serialization as a string. -/
def Json.to_string (v : Json) : String :=
  String.mk (Json.render v)

/-- Modelled from the spec: the stable 64-bit hash function used for the
content fingerprint (section 4.4 allows any stable 64-bit hash; the standard
library DefaultHasher is external code and is modelled as a fixed
deterministic 64-bit digest of the hashed string). -/
def stringHash64 (s : String) : Nat :=
  s.data.foldl (fun h c => (h * 1099511628211 + c.toNat) % 2 ^ 64) 14695981039346656037

/-- A node edge point record (node_edge_point.rs lines 13-23); both
identifiers are 128-bit UUID values. -/
structure NodeEdgePoint where
  node_edge_point_uuid : Nat
  node_uuid : Nat
deriving DecidableEq, Repr

/-- NodeEdgePoint::from_value (node_edge_point.rs lines 28-52): each field
is fetched, coerced to a string with the empty string as the fallback, and
parsed as UUID text. -/
def NodeEdgePoint.from_value (value : Json) : Except Error NodeEdgePoint :=
  match Uuid.parse_str (((Json.get value "node-edge-point-uuid").bind Json.as_str).getD "") with
  | none => .error (.Custom "Not found node edge point uuid")
  | some node_edge_point_uuid =>
    match Uuid.parse_str (((Json.get value "node-uuid").bind Json.as_str).getD "") with
    | none => .error (.Custom "Not found node uuid")
    | some node_uuid =>
      .ok { node_edge_point_uuid := node_edge_point_uuid, node_uuid := node_uuid }

/-- A link record (link.rs lines 21-30). -/
structure Link where
  host : String
  node_edge_points : List NodeEdgePoint
  uuid : Nat
  hash : Nat
  date : DateTimeLocal
deriving DecidableEq, Repr

/-- The element loop of Link::from_value (link.rs lines 61-73): parse every
array element in order, returning the first element error. -/
def linkMapNEP : List Json → Except Error (List NodeEdgePoint)
  | [] => .ok []
  | x :: xs =>
    match NodeEdgePoint.from_value x with
    | .error e => .error e
    | .ok p =>
      match linkMapNEP xs with
      | .error e => .error e
      | .ok ps => .ok (p :: ps)

/-- Link::from_value (link.rs lines 42-90).  The parameter now models the
wall clock read Local::now() taken at parse time (injected per section 5 of
the spec); everything else is a function of the input value and the
caller-supplied host label. -/
def Link.from_value (value : Json) (host : String) (now : DateTimeLocal) :
    Except Error Link :=
  match Uuid.parse_str (((Json.get value "uuid").bind Json.as_str).getD "") with
  | none => .error (.Custom "Not found link uuid")
  | some uuid =>
    match (Json.get value "node-edge-point").bind Json.as_array with
    | none => .error (.Custom "Not found node edge points list")
    | some node_edge_points_array =>
      match linkMapNEP node_edge_points_array with
      | .error e => .error e
      | .ok node_edge_points =>
        .ok { host := host, node_edge_points := node_edge_points, uuid := uuid,
              hash := stringHash64 (Json.to_string value), date := now }

/-- The derived serialization of a node edge point, with the renamed
external keys (node_edge_point.rs lines 13-23). -/
def NodeEdgePoint.toJson (p : NodeEdgePoint) : Json :=
  .obj [("node-edge-point-uuid", .str (uuidToString p.node_edge_point_uuid)),
        ("node-uuid", .str (uuidToString p.node_uuid))]

/-- The derived deserialization of a node edge point. -/
def NodeEdgePoint.fromJson (v : Json) : Option NodeEdgePoint :=
  match (Json.get v "node-edge-point-uuid").bind Json.as_str with
  | none => none
  | some s1 =>
    match Uuid.parse_str s1 with
    | none => none
    | some u1 =>
      match (Json.get v "node-uuid").bind Json.as_str with
      | none => none
      | some s2 =>
        match Uuid.parse_str s2 with
        | none => none
        | some u2 => some { node_edge_point_uuid := u1, node_uuid := u2 }

/-- Element-wise deserialization of a node edge point array. -/
def mapNEPfromJson : List Json → Option (List NodeEdgePoint)
  | [] => some []
  | x :: xs =>
    match NodeEdgePoint.fromJson x with
    | none => none
    | some p =>
      match mapNEPfromJson xs with
      | none => none
      | some ps => some (p :: ps)

/-- A JSON number read back as an unsigned 64-bit value. -/
def Json.as_u64 : Json → Option Nat
  | .num n => if 0 ≤ n ∧ n < 2 ^ 64 then some n.toNat else none
  | _ => none

/-- The derived serialization of a link (link.rs lines 21-30): field order
is declaration order, the vector field is renamed node-edge-point, the UUID
is written in its hyphenated string form, the hash as a number and the date
as an RFC 3339 string. -/
def Link.toJson (l : Link) : Json :=
  .obj [("host", .str l.host),
        ("node-edge-point", .arr (l.node_edge_points.map NodeEdgePoint.toJson)),
        ("uuid", .str (uuidToString l.uuid)),
        ("hash", .num (l.hash : Int)),
        ("date", .str (DateTimeLocal.toRfc3339 l.date))]

/-- The derived deserialization of a link: every field is fetched by its
external key name. -/
def Link.fromJson (v : Json) : Option Link :=
  match (Json.get v "host").bind Json.as_str with
  | none => none
  | some host =>
    match (Json.get v "node-edge-point").bind Json.as_array with
    | none => none
    | some xs =>
      match mapNEPfromJson xs with
      | none => none
      | some ps =>
        match (Json.get v "uuid").bind Json.as_str with
        | none => none
        | some us =>
          match Uuid.parse_str us with
          | none => none
          | some uuid =>
            match (Json.get v "hash").bind Json.as_u64 with
            | none => none
            | some hash =>
              match (Json.get v "date").bind Json.as_str with
              | none => none
              | some ds =>
                match dateFromString ds with
                | none => none
                | some date =>
                  some { host := host, node_edge_points := ps, uuid := uuid,
                         hash := hash, date := date }

/-- A concrete timestamp used by concrete evaluations. -/
def dateZero : DateTimeLocal :=
  { year := 2024, month := 1, day := 1, hour := 0, minute := 0, second := 0,
    nanos := 0, offsetMinutes := 0 }

/-- A minimal valid link input: a well-formed uuid and an empty
node-edge-point array. -/
def linkInput0 : Json :=
  .obj [("node-edge-point", .arr []),
        ("uuid", .str "14219539-208b-35f5-b7cf-35a58e083490")]

/-- The same link input with an extra host key prepended. -/
def linkInput0h : Json :=
  .obj [("host", .str "x"),
        ("node-edge-point", .arr []),
        ("uuid", .str "14219539-208b-35f5-b7cf-35a58e083490")]

/-- The link input of the concrete spec scenario in section 8: one
node-edge-point element, all identifiers well formed. -/
def linkInput1 : Json :=
  .obj [("node-edge-point",
          .arr [.obj [("node-edge-point-uuid", .str "65a39427-3055-3ba4-9e15-0ebed4974577"),
                      ("node-uuid", .str "62d11f13-db6c-3398-8a83-5fac0b2b7476")]]),
        ("uuid", .str "14219539-208b-35f5-b7cf-35a58e083490")]

/-- A second concrete timestamp used by concrete evaluations. -/
def dateOne : DateTimeLocal :=
  { year := 2025, month := 6, day := 2, hour := 1, minute := 2, second := 3,
    nanos := 4, offsetMinutes := -60 }

/-- The link record obtained by parsing linkInput0 with a given label and
clock value. -/
def linkRec (host : String) (now : DateTimeLocal) : Link :=
  { host := host, node_edge_points := [],
    uuid := 0x14219539208b35f5b7cf35a58e083490,
    hash := stringHash64 (Json.to_string linkInput0), date := now }

/-- The link record obtained by parsing linkInput0h with label h. -/
def linkRecH : Link :=
  { host := "h", node_edge_points := [],
    uuid := 0x14219539208b35f5b7cf35a58e083490,
    hash := stringHash64 (Json.to_string linkInput0h), date := dateZero }

/-- The link record obtained by parsing linkInput1 with label h at the
concrete clock value dateZero. -/
def linkRec1 : Link :=
  { host := "h",
    node_edge_points :=
      [{ node_edge_point_uuid := 0x65a3942730553ba49e150ebed4974577,
         node_uuid := 0x62d11f13db6c33988a835fac0b2b7476 }],
    uuid := 0x14219539208b35f5b7cf35a58e083490,
    hash := stringHash64 (Json.to_string linkInput1), date := dateZero }

/-- C1: on an object input the authentication parser picks its variant by
key presence in the fixed order grant_type, auth_body, username with
password, failing otherwise; once a branch is picked, a failure of that
variant field extraction is returned as is and never falls back to a later
variant. -/
theorem auth_from_value_precedence (o : List (String × Json)) :
    (containsKey o "grant_type" = true →
      Auth.from_value (.obj o) = (Oauth2.from_value (.obj o)).map Auth.Oauth2) ∧
    (containsKey o "grant_type" = false → containsKey o "auth_body" = true →
      Auth.from_value (.obj o) = (CustomAuth.from_value (.obj o)).map Auth.Custom) ∧
    (containsKey o "grant_type" = false → containsKey o "auth_body" = false →
      containsKey o "username" = true → containsKey o "password" = true →
      Auth.from_value (.obj o) = (BasicAuth.from_value (.obj o)).map Auth.BasicAuth) ∧
    (containsKey o "grant_type" = false → containsKey o "auth_body" = false →
      (containsKey o "username" && containsKey o "password") = false →
      Auth.from_value (.obj o) = .error (.Custom "Not recognizable authentication type")) ∧
    (∀ e, containsKey o "grant_type" = true → Oauth2.from_value (.obj o) = .error e →
      Auth.from_value (.obj o) = .error e) := by
  refine ⟨?_, ?_, ?_, ?_, ?_⟩
  · intro h
    simp [Auth.from_value, Json.as_object, h]
  · intro h1 h2
    simp [Auth.from_value, Json.as_object, h1, h2]
  · intro h1 h2 h3 h4
    simp [Auth.from_value, Json.as_object, h1, h2, h3, h4]
  · intro h1 h2 h3
    simp [Auth.from_value, Json.as_object, h1, h2, h3]
  · intro e h1 h2
    simp [Auth.from_value, Json.as_object, h1, h2, Except.map]

/-- Witness for C1: the object of the spec scenario in section 8, holding
grant_type and username but neither password nor auth_url, is routed to the
OAuth2 branch and its missing-field error is fatal, with no fallback to
another variant. -/
theorem auth_from_value_precedence_witness :
    Auth.from_value
        (.obj [("grant_type", .str "client_credentials"), ("username", .str "u")]) =
      (Oauth2.from_value
        (.obj [("grant_type", .str "client_credentials"), ("username", .str "u")])).map
          Auth.Oauth2 ∧
    Auth.from_value
        (.obj [("grant_type", .str "client_credentials"), ("username", .str "u")]) =
      .error (.Custom "Password for OAuth2 authentication not found") :=
  ⟨(auth_from_value_precedence
      [("grant_type", .str "client_credentials"), ("username", .str "u")]).1 rfl,
    ((auth_from_value_precedence
      [("grant_type", .str "client_credentials"), ("username", .str "u")]).2.2.2.2
      (.Custom "Password for OAuth2 authentication not found") rfl rfl)⟩

/-- Counterexample for C7: a device input whose host is the empty string is
accepted, so the parser does not require a non-empty host. -/
theorem device_from_value_accepts_empty_host :
    Device.from_value
        (.obj [("host", .str ""),
               ("auth", .obj [("username", .str "u"), ("password", .str "p")])]) =
      .ok { host := "", port := none,
            auth := .BasicAuth { username := "u", password := "p" } } := rfl

/-- C7 amended: on success the host field of the returned record is exactly
the string held by the host key of the input, which must be present and
string-typed, but may be empty. -/
theorem device_from_value_host_string (v : Json) (d : Device)
    (h : Device.from_value v = .ok d) :
    (Json.get v "host").bind Json.as_str = some d.host := by
  unfold Device.from_value at h
  cases hh : (Json.get v "host").bind Json.as_str with
  | none => simp [hh] at h
  | some s =>
    simp only [hh] at h
    cases ha : Json.get v "auth" with
    | none => simp [ha] at h
    | some a =>
      simp only [ha] at h
      cases hv : Auth.from_value a with
      | error e => simp [hv] at h
      | ok au =>
        simp only [hv] at h
        cases h
        rfl

/-- Witness for C7 amended: a device record parsed from a concrete input
carries exactly the input host string. -/
theorem device_from_value_host_string_witness :
    (Json.get
        (.obj [("host", .str "1.2.3.4"),
               ("auth", .obj [("username", .str "u"), ("password", .str "p")])])
        "host").bind Json.as_str =
      some (Device.host
        { host := "1.2.3.4", port := none,
          auth := .BasicAuth { username := "u", password := "p" } }) :=
  device_from_value_host_string
    (.obj [("host", .str "1.2.3.4"),
           ("auth", .obj [("username", .str "u"), ("password", .str "p")])])
    { host := "1.2.3.4", port := none,
      auth := .BasicAuth { username := "u", password := "p" } } rfl

/-- Counterexample for C8: on an object with none of the discriminating
keys the parser fails, but with the message text of the source, which is
not the message the claim states. -/
theorem auth_from_value_unrecognized_message :
    Auth.from_value (.obj []) = .error (.Custom "Not recognizable authentication type") ∧
      Error.Custom "Not recognizable authentication type" ≠
        Error.Custom "unrecognized authentication type" :=
  ⟨rfl, by decide⟩

/-- C8 amended: on an object input holding no grant_type key, no auth_body
key and not both username and password, the authentication parser fails
with exactly the message of the source, Not recognizable authentication
type. -/
theorem auth_from_value_unrecognized (o : List (String × Json))
    (h1 : containsKey o "grant_type" = false)
    (h2 : containsKey o "auth_body" = false)
    (h3 : (containsKey o "username" && containsKey o "password") = false) :
    Auth.from_value (.obj o) = .error (.Custom "Not recognizable authentication type") := by
  simp [Auth.from_value, Json.as_object, h1, h2, h3]

/-- Witness for C8 amended: an object holding only username fails with
the unrecognized-type message. -/
theorem auth_from_value_unrecognized_witness :
    Auth.from_value (.obj [("username", .str "u")]) =
      .error (.Custom "Not recognizable authentication type") :=
  auth_from_value_unrecognized [("username", .str "u")] rfl rfl rfl

/-- If every element is related to its parse result, the element loop
succeeds with exactly the related list. -/
theorem linkMapNEP_forall2 {xs : List Json} {ps : List NodeEdgePoint}
    (h : List.Forall₂ (fun x p => NodeEdgePoint.from_value x = .ok p) xs ps) :
    linkMapNEP xs = .ok ps := by
  induction h with
  | nil => rfl
  | cons hx _ ih => simp [linkMapNEP, hx, ih]

/-- If every element of a prefix parses and the next element fails, the
element loop fails with exactly that element error. -/
theorem linkMapNEP_error {pre : List Json} {x : Json} {rest : List Json} {e : Error}
    (hpre : ∀ y ∈ pre, ∃ p, NodeEdgePoint.from_value y = .ok p)
    (hx : NodeEdgePoint.from_value x = .error e) :
    linkMapNEP (pre ++ x :: rest) = .error e := by
  induction pre with
  | nil => simp [linkMapNEP, hx]
  | cons y ys ih =>
    obtain ⟨p, hp⟩ := hpre y (by simp)
    have := ih (fun z hz => hpre z (by simp [hz]))
    simp [linkMapNEP, hp, this]

/-- Inversion of a successful link parse: the host is the label, the date
is the injected clock value, the hash is the digest of the serialized
input, the uuid comes from the uuid field and the element list from the
element loop. -/
theorem link_from_value_ok_elim {v : Json} {h : String} {now : DateTimeLocal} {l : Link}
    (hp : Link.from_value v h now = .ok l) :
    l.host = h ∧ l.date = now ∧ l.hash = stringHash64 (Json.to_string v) ∧
      Uuid.parse_str (((Json.get v "uuid").bind Json.as_str).getD "") = some l.uuid ∧
      ∃ xs, (Json.get v "node-edge-point").bind Json.as_array = some xs ∧
        linkMapNEP xs = .ok l.node_edge_points := by
  unfold Link.from_value at hp
  cases hu : Uuid.parse_str (((Json.get v "uuid").bind Json.as_str).getD "") with
  | none => simp [hu] at hp
  | some u =>
    simp only [hu] at hp
    cases ha : (Json.get v "node-edge-point").bind Json.as_array with
    | none => simp [ha] at hp
    | some xs =>
      simp only [ha] at hp
      cases hm : linkMapNEP xs with
      | error e => simp [hm] at hp
      | ok ps =>
        simp only [hm] at hp
        cases hp
        exact ⟨rfl, rfl, rfl, rfl, xs, rfl, hm⟩

/-- C2: when the uuid field is a well-formed UUID string and every element
of the node-edge-point array parses, the link parse succeeds, and its
element list is position for position the list of parsed elements, with
the same length as the input array. -/
theorem link_from_value_ok (v : Json) (hostLabel : String) (now : DateTimeLocal)
    (s : String) (u : Nat) (xs : List Json) (ps : List NodeEdgePoint)
    (h1 : Json.get v "uuid" = some (.str s))
    (h2 : Uuid.parse_str s = some u)
    (h3 : Json.get v "node-edge-point" = some (.arr xs))
    (h4 : xs ≠ [])
    (h5 : List.Forall₂ (fun x p => NodeEdgePoint.from_value x = .ok p) xs ps) :
    Link.from_value v hostLabel now =
      .ok { host := hostLabel, node_edge_points := ps, uuid := u,
            hash := stringHash64 (Json.to_string v), date := now } ∧
      ps.length = xs.length := by
  refine ⟨?_, (List.Forall₂.length_eq h5).symm⟩
  unfold Link.from_value
  simp [h1, h2, h3, Json.as_str, Json.as_array, Option.bind, linkMapNEP_forall2 h5]

/-- Witness for C2: the spec scenario input with one element parses into a
link with exactly that one element. -/
theorem link_from_value_ok_witness :
    Link.from_value linkInput1 "h" dateZero =
      .ok { host := "h",
            node_edge_points :=
              [{ node_edge_point_uuid := 0x65a3942730553ba49e150ebed4974577,
                 node_uuid := 0x62d11f13db6c33988a835fac0b2b7476 }],
            uuid := 0x14219539208b35f5b7cf35a58e083490,
            hash := stringHash64 (Json.to_string linkInput1), date := dateZero } ∧
      [({ node_edge_point_uuid := 0x65a3942730553ba49e150ebed4974577,
          node_uuid := 0x62d11f13db6c33988a835fac0b2b7476 } : NodeEdgePoint)].length = 1 :=
  link_from_value_ok linkInput1 "h" dateZero
    "14219539-208b-35f5-b7cf-35a58e083490" 0x14219539208b35f5b7cf35a58e083490
    [.obj [("node-edge-point-uuid", .str "65a39427-3055-3ba4-9e15-0ebed4974577"),
           ("node-uuid", .str "62d11f13-db6c-3398-8a83-5fac0b2b7476")]]
    [{ node_edge_point_uuid := 0x65a3942730553ba49e150ebed4974577,
       node_uuid := 0x62d11f13db6c33988a835fac0b2b7476 }]
    rfl rfl rfl (List.cons_ne_nil _ _) (List.Forall₂.cons rfl List.Forall₂.nil)

/-- Counterexample for C3: on an input with no uuid key the link parse
fails, but with the capitalized message of the source, which is not the
message text the claim states. -/
theorem link_error_message_case :
    Link.from_value (.obj []) "h" dateZero = .error (.Custom "Not found link uuid") ∧
      Error.Custom "Not found link uuid" ≠ Error.Custom "not found link uuid" :=
  ⟨rfl, by decide⟩

/-- C3 amended: with the capitalized source messages, a missing uuid key
fails with Not found link uuid; a missing node-edge-point key fails with
Not found node edge points list; and a first failing element whose
node-edge-point-uuid is valid but whose node-uuid key is absent aborts the
whole parse with Not found node uuid. -/
theorem link_error_messages :
    (∀ (v : Json) (h : String) (now : DateTimeLocal), Json.get v "uuid" = none →
      Link.from_value v h now = .error (.Custom "Not found link uuid")) ∧
    (∀ (v : Json) (h : String) (now : DateTimeLocal) (u : Nat),
      Uuid.parse_str (((Json.get v "uuid").bind Json.as_str).getD "") = some u →
      Json.get v "node-edge-point" = none →
      Link.from_value v h now = .error (.Custom "Not found node edge points list")) ∧
    (∀ (v : Json) (h : String) (now : DateTimeLocal) (u w : Nat)
      (xs pre : List Json) (x : Json) (rest : List Json),
      Uuid.parse_str (((Json.get v "uuid").bind Json.as_str).getD "") = some u →
      Json.get v "node-edge-point" = some (.arr xs) →
      xs = pre ++ x :: rest →
      (∀ y ∈ pre, ∃ p, NodeEdgePoint.from_value y = .ok p) →
      Uuid.parse_str (((Json.get x "node-edge-point-uuid").bind Json.as_str).getD "") = some w →
      Json.get x "node-uuid" = none →
      Link.from_value v h now = .error (.Custom "Not found node uuid")) := by
  refine ⟨?_, ?_, ?_⟩
  · intro v h now hu
    unfold Link.from_value
    rw [show ((Json.get v "uuid").bind Json.as_str).getD "" = "" from by rw [hu]; rfl]
    rfl
  · intro v h now u hu hn
    unfold Link.from_value
    rw [hu, hn]
    rfl
  · intro v h now u w xs pre x rest hu hn hxs hpre hw hx
    have hnep : NodeEdgePoint.from_value x = .error (.Custom "Not found node uuid") := by
      unfold NodeEdgePoint.from_value
      rw [hw, show ((Json.get x "node-uuid").bind Json.as_str).getD "" = "" from by
        rw [hx]; rfl]
      rfl
    unfold Link.from_value
    rw [hu, hn, hxs]
    simp only [Option.some_bind, Json.as_array]
    rw [linkMapNEP_error hpre hnep]

/-- Witness for C3 amended: concrete inputs for the three message cases. -/
theorem link_error_messages_witness :
    Link.from_value (.obj [("node-edge-point", .arr [])]) "h" dateZero =
      .error (.Custom "Not found link uuid") ∧
    Link.from_value (.obj [("uuid", .str "14219539-208b-35f5-b7cf-35a58e083490")]) "h"
        dateZero = .error (.Custom "Not found node edge points list") ∧
    Link.from_value
        (.obj [("node-edge-point",
                 .arr [.obj [("node-edge-point-uuid",
                               .str "65a39427-3055-3ba4-9e15-0ebed4974577")]]),
               ("uuid", .str "14219539-208b-35f5-b7cf-35a58e083490")]) "h" dateZero =
      .error (.Custom "Not found node uuid") :=
  ⟨link_error_messages.1 (.obj [("node-edge-point", .arr [])]) "h" dateZero rfl,
   link_error_messages.2.1 (.obj [("uuid", .str "14219539-208b-35f5-b7cf-35a58e083490")])
     "h" dateZero 0x14219539208b35f5b7cf35a58e083490 rfl rfl,
   link_error_messages.2.2
     (.obj [("node-edge-point",
              .arr [.obj [("node-edge-point-uuid",
                            .str "65a39427-3055-3ba4-9e15-0ebed4974577")]]),
            ("uuid", .str "14219539-208b-35f5-b7cf-35a58e083490")]) "h" dateZero
     0x14219539208b35f5b7cf35a58e083490 0x65a3942730553ba49e150ebed4974577
     [.obj [("node-edge-point-uuid", .str "65a39427-3055-3ba4-9e15-0ebed4974577")]]
     [] (.obj [("node-edge-point-uuid", .str "65a39427-3055-3ba4-9e15-0ebed4974577")]) []
     rfl rfl rfl (by simp) rfl rfl⟩

/-- C6: a nested parse error propagates unchanged to the top caller: the
first failing node-edge-point element error is returned verbatim by the
link parser, and the authentication parser error is returned verbatim by
the device parser, with no partial record. -/
theorem nested_error_propagation :
    (∀ (v : Json) (h : String) (now : DateTimeLocal) (u : Nat)
      (xs pre : List Json) (x : Json) (rest : List Json) (e : Error),
      Uuid.parse_str (((Json.get v "uuid").bind Json.as_str).getD "") = some u →
      (Json.get v "node-edge-point").bind Json.as_array = some xs →
      xs = pre ++ x :: rest →
      (∀ y ∈ pre, ∃ p, NodeEdgePoint.from_value y = .ok p) →
      NodeEdgePoint.from_value x = .error e →
      Link.from_value v h now = .error e) ∧
    (∀ (v : Json) (s : String) (a : Json) (e : Error),
      (Json.get v "host").bind Json.as_str = some s →
      Json.get v "auth" = some a →
      Auth.from_value a = .error e →
      Device.from_value v = .error e) := by
  constructor
  · intro v h now u xs pre x rest e hu hn hxs hpre hx
    unfold Link.from_value
    simp [hu, hn, hxs, linkMapNEP_error hpre hx]
  · intro v s a e hs ha he
    unfold Device.from_value
    simp [hs, ha, he]

/-- Witness for C6: a concrete element error and a concrete authentication
error are both propagated verbatim. -/
theorem nested_error_propagation_witness :
    Link.from_value
        (.obj [("node-edge-point", .arr [.obj []]),
               ("uuid", .str "14219539-208b-35f5-b7cf-35a58e083490")]) "h" dateZero =
      .error (.Custom "Not found node edge point uuid") ∧
    Device.from_value
        (.obj [("host", .str "1.2.3.4"),
               ("auth", .obj [("grant_type", .str "password")])]) =
      .error (.Custom "Username for OAuth2 authentication not found") :=
  ⟨nested_error_propagation.1
     (.obj [("node-edge-point", .arr [.obj []]),
            ("uuid", .str "14219539-208b-35f5-b7cf-35a58e083490")]) "h" dateZero
     0x14219539208b35f5b7cf35a58e083490 [.obj []] [] (.obj []) []
     (.Custom "Not found node edge point uuid") rfl rfl rfl (by simp) rfl,
   nested_error_propagation.2
     (.obj [("host", .str "1.2.3.4"), ("auth", .obj [("grant_type", .str "password")])])
     "1.2.3.4" (.obj [("grant_type", .str "password")])
     (.Custom "Username for OAuth2 authentication not found") rfl rfl rfl⟩

/-- C10: an input whose uuid is well formed and whose node-edge-point key
holds an empty array parses successfully into a link with an empty element
list: emptiness is not an error. -/
theorem link_from_value_empty_array (v : Json) (hostLabel : String)
    (now : DateTimeLocal) (s : String) (u : Nat)
    (h1 : Json.get v "uuid" = some (.str s))
    (h2 : Uuid.parse_str s = some u)
    (h3 : Json.get v "node-edge-point" = some (.arr [])) :
    Link.from_value v hostLabel now =
      .ok { host := hostLabel, node_edge_points := [], uuid := u,
            hash := stringHash64 (Json.to_string v), date := now } := by
  unfold Link.from_value
  simp [h1, h2, h3, Json.as_str, Json.as_array, Option.bind, linkMapNEP]

/-- Witness for C10: the minimal link input with an empty element array
parses successfully. -/
theorem link_from_value_empty_array_witness :
    Link.from_value linkInput0 "h" dateZero =
      .ok { host := "h", node_edge_points := [],
            uuid := 0x14219539208b35f5b7cf35a58e083490,
            hash := stringHash64 (Json.to_string linkInput0), date := dateZero } :=
  link_from_value_empty_array linkInput0 "h" dateZero
    "14219539-208b-35f5-b7cf-35a58e083490" 0x14219539208b35f5b7cf35a58e083490
    rfl rfl rfl

/-- Field access skips a leading field with a different key. -/
theorem json_get_cons_ne (k : String) (x : Json) (fs : List (String × Json))
    (key : String) (hk : k ≠ key) :
    Json.get (.obj ((k, x) :: fs)) key = Json.get (.obj fs) key := by
  simp [Json.get, lookupField, hk]

set_option maxRecDepth 8192 in
/-- Counterexample for C9: adding a host key to the input leaves the host
field of the result at the caller label, but changes the content hash, so
it does change the result. -/
theorem link_input_host_key_changes_hash :
    (Link.from_value linkInput0h "h" dateZero).map Link.hash = .ok 4313396813970408573 ∧
    (Link.from_value linkInput0 "h" dateZero).map Link.hash = .ok 6725055470919953591 ∧
    (4313396813970408573 : Nat) ≠ 6725055470919953591 ∧
    (Link.from_value linkInput0h "h" dateZero).map Link.host = .ok "h" ∧
    (Link.from_value linkInput0 "h" dateZero).map Link.host = .ok "h" :=
  ⟨rfl, rfl, by decide, rfl, rfl⟩

/-- C9 amended: the host field of a parsed link is always the caller
label, never read from the input; a host key present in the input leaves
every field of the result unchanged except the content hash, which by
design digests every input key. -/
theorem link_host_label :
    (∀ (v : Json) (h : String) (now : DateTimeLocal) (l : Link),
      Link.from_value v h now = .ok l → l.host = h) ∧
    (∀ (o : List (String × Json)) (w : Json) (h : String) (now : DateTimeLocal)
      (l l' : Link),
      Link.from_value (.obj (("host", w) :: o)) h now = .ok l' →
      Link.from_value (.obj o) h now = .ok l →
      l'.host = l.host ∧ l'.uuid = l.uuid ∧
        l'.node_edge_points = l.node_edge_points ∧ l'.date = l.date) := by
  constructor
  · intro v h now l hp
    exact (link_from_value_ok_elim hp).1
  · intro o w h now l l' hp' hp
    obtain ⟨hh', hd', _, hu', xs', hx', hm'⟩ := link_from_value_ok_elim hp'
    obtain ⟨hh, hd, _, hu, xs, hx, hm⟩ := link_from_value_ok_elim hp
    have g1 : Json.get (.obj (("host", w) :: o)) "uuid" = Json.get (.obj o) "uuid" :=
      json_get_cons_ne _ _ _ _ (by decide)
    have g2 : Json.get (.obj (("host", w) :: o)) "node-edge-point" =
        Json.get (.obj o) "node-edge-point" :=
      json_get_cons_ne _ _ _ _ (by decide)
    rw [g1] at hu'
    rw [g2] at hx'
    rw [hu] at hu'
    rw [hx] at hx'
    injection hu' with huv
    injection hx' with hxv
    subst hxv
    rw [hm] at hm'
    injection hm' with hmv
    exact ⟨hh'.trans hh.symm, huv.symm, hmv.symm, hd'.trans hd.symm⟩

/-- Witness for C9 amended: at the concrete minimal input, with and
without an input host key, the host, uuid, element and date fields of the
two parsed records agree. -/
theorem link_host_label_witness :
    linkRecH.host = (linkRec "h" dateZero).host ∧
      linkRecH.uuid = (linkRec "h" dateZero).uuid ∧
      linkRecH.node_edge_points = (linkRec "h" dateZero).node_edge_points ∧
      linkRecH.date = (linkRec "h" dateZero).date :=
  link_host_label.2
    [("node-edge-point", .arr []),
     ("uuid", .str "14219539-208b-35f5-b7cf-35a58e083490")]
    (.str "x") "h" dateZero (linkRec "h" dateZero) linkRecH rfl rfl

/-- Counterexample for C4: two parses of the same input value at the same
time but with different host labels produce records that differ in the
host field, so the creation timestamp is not the only field that can
differ between invocations with arbitrary host labels. -/
theorem link_host_field_differs :
    (Link.from_value linkInput0 "a" dateZero).map Link.host = .ok "a" ∧
    (Link.from_value linkInput0 "b" dateZero).map Link.host = .ok "b" ∧
    ("a" : String) ≠ "b" :=
  ⟨rfl, rfl, by decide⟩

/-- C4 amended: the content hash of a parsed link is a pure deterministic
function of the input value alone, equal across invocations with any host
labels and clock values; between two invocations with equal host labels
the creation timestamp is the only field that may differ. -/
theorem link_hash_pure (v : Json) (h1 h2 : String) (t1 t2 : DateTimeLocal)
    (l1 l2 : Link)
    (hp1 : Link.from_value v h1 t1 = .ok l1)
    (hp2 : Link.from_value v h2 t2 = .ok l2) :
    l1.hash = l2.hash ∧ l1.uuid = l2.uuid ∧
      l1.node_edge_points = l2.node_edge_points ∧
      l1.date = t1 ∧ l2.date = t2 ∧ (h1 = h2 → l1.host = l2.host) := by
  obtain ⟨ha1, hd1, hs1, hu1, xs1, hx1, hm1⟩ := link_from_value_ok_elim hp1
  obtain ⟨ha2, hd2, hs2, hu2, xs2, hx2, hm2⟩ := link_from_value_ok_elim hp2
  rw [hu1] at hu2
  injection hu2 with huv
  rw [hx1] at hx2
  injection hx2 with hxv
  subst hxv
  rw [hm1] at hm2
  injection hm2 with hmv
  refine ⟨hs1.trans hs2.symm, huv, hmv, hd1, hd2, ?_⟩
  intro he
  rw [ha1, ha2, he]

/-- Witness for C4 amended: two parses of the minimal input at different
times and labels share the hash, uuid and elements. -/
theorem link_hash_pure_witness :
    (linkRec "a" dateZero).hash = (linkRec "b" dateOne).hash ∧
      (linkRec "a" dateZero).uuid = (linkRec "b" dateOne).uuid ∧
      (linkRec "a" dateZero).node_edge_points = (linkRec "b" dateOne).node_edge_points ∧
      (linkRec "a" dateZero).date = dateZero ∧
      (linkRec "b" dateOne).date = dateOne ∧
      ("a" = "b" → (linkRec "a" dateZero).host = (linkRec "b" dateOne).host) :=
  link_hash_pure linkInput0 "a" "b" dateZero dateOne
    (linkRec "a" dateZero) (linkRec "b" dateOne) rfl rfl

/-- Decoding inverts encoding on one hexadecimal digit. -/
theorem hexVal_nibbleChar : ∀ d : Fin 16, hexVal (nibbleChar d.val) = some d.val := by
  decide

/-- A decoded hexadecimal digit is below 16. -/
theorem hexVal_lt {c : Char} {d : Nat} (h : hexVal c = some d) : d < 16 := by
  unfold hexVal at h
  split_ifs at h <;> injection h with h <;> omega

/-- hexChars always produces exactly n characters. -/
theorem hexChars_length (n v : Nat) : (hexChars n v).length = n := by
  induction n generalizing v with
  | zero => rfl
  | succ n ih => simp [hexChars, ih]

/-- Consuming the fixed-width hexadecimal rendering of a value below the
width bound recovers the value and leaves the remainder untouched. -/
theorem takeHexAux_hexChars :
    ∀ (n v acc : Nat) (cs : List Char), v < 16 ^ n →
      takeHexAux n acc (hexChars n v ++ cs) = some (acc * 16 ^ n + v, cs) := by
  intro n
  induction n with
  | zero =>
    intro v acc cs hv
    have : v = 0 := by omega
    subst this
    simp [hexChars, takeHexAux]
  | succ n ih =>
    intro v acc cs hv
    have hpos : 0 < 16 ^ n := Nat.pos_pow_of_pos n (by omega)
    have hd : v / 16 ^ n < 16 := by
      rw [Nat.div_lt_iff_lt_mul hpos]
      calc v < 16 ^ (n + 1) := hv
        _ = 16 * 16 ^ n := by ring
    simp only [hexChars, Nat.mod_eq_of_lt hd, List.cons_append, takeHexAux]
    simp only [show hexVal (nibbleChar (v / 16 ^ n)) = some (v / 16 ^ n) from
      hexVal_nibbleChar ⟨v / 16 ^ n, hd⟩, List.append_eq]
    rw [ih (v % 16 ^ n) (acc * 16 + v / 16 ^ n) cs (Nat.mod_lt _ hpos)]
    have hvm := Nat.div_add_mod v (16 ^ n)
    congr 2
    calc (acc * 16 + v / 16 ^ n) * 16 ^ n + v % 16 ^ n
        = acc * (16 ^ n * 16) + (16 ^ n * (v / 16 ^ n) + v % 16 ^ n) := by ring
      _ = acc * 16 ^ (n + 1) + v := by rw [hvm]; ring

/-- A value consumed from n hexadecimal characters is below the width
bound scaled by the accumulator. -/
theorem takeHexAux_lt :
    ∀ (n acc : Nat) (cs : List Char) (v : Nat) (r : List Char),
      takeHexAux n acc cs = some (v, r) → v < (acc + 1) * 16 ^ n := by
  intro n
  induction n with
  | zero =>
    intro acc cs v r h
    simp [takeHexAux] at h
    omega
  | succ n ih =>
    intro acc cs v r h
    cases cs with
    | nil => simp [takeHexAux] at h
    | cons c cs =>
      simp only [takeHexAux] at h
      cases hc : hexVal c with
      | none => rw [hc] at h; cases h
      | some d =>
        rw [hc] at h
        have hd := hexVal_lt hc
        have := ih (acc * 16 + d) cs v r h
        calc v < (acc * 16 + d + 1) * 16 ^ n := this
          _ ≤ ((acc + 1) * 16) * 16 ^ n := Nat.mul_le_mul_right _ (by omega)
          _ = (acc + 1) * 16 ^ (n + 1) := by ring

/-- The grouped digit decomposition used by the hyphenated rendering
recomposes to the original value. -/
theorem uuid_group_identity (u : Nat) :
    (((u / 16 ^ 24 * 16 ^ 4 + u / 16 ^ 20 % 16 ^ 4) * 16 ^ 4 +
        u / 16 ^ 16 % 16 ^ 4) * 16 ^ 4 + u / 16 ^ 12 % 16 ^ 4) * 16 ^ 12 +
      u % 16 ^ 12 = u := by
  have h20 : u / 16 ^ 20 / 16 ^ 4 = u / 16 ^ 24 := by
    rw [Nat.div_div_eq_div_mul]; norm_num
  have h16 : u / 16 ^ 16 / 16 ^ 4 = u / 16 ^ 20 := by
    rw [Nat.div_div_eq_div_mul]; norm_num
  have h12 : u / 16 ^ 12 / 16 ^ 4 = u / 16 ^ 16 := by
    rw [Nat.div_div_eq_div_mul]; norm_num
  have e20 : u / 16 ^ 24 * 16 ^ 4 + u / 16 ^ 20 % 16 ^ 4 = u / 16 ^ 20 := by
    rw [← h20, Nat.mul_comm]; exact Nat.div_add_mod _ _
  have e16 : u / 16 ^ 20 * 16 ^ 4 + u / 16 ^ 16 % 16 ^ 4 = u / 16 ^ 16 := by
    rw [← h16, Nat.mul_comm]; exact Nat.div_add_mod _ _
  have e12 : u / 16 ^ 16 * 16 ^ 4 + u / 16 ^ 12 % 16 ^ 4 = u / 16 ^ 12 := by
    rw [← h12, Nat.mul_comm]; exact Nat.div_add_mod _ _
  rw [e20, e16, e12, Nat.mul_comm]
  exact Nat.div_add_mod _ _

/-- Parsing inverts the hyphenated rendering of every 128-bit UUID value. -/
theorem uuidParse_uuidToString {u : Nat} (hu : u < 16 ^ 32) :
    Uuid.parse_str (uuidToString u) = some u := by
  have hpos24 : 0 < (16 : Nat) ^ 24 := by positivity
  have ha : u / 16 ^ 24 < 16 ^ 8 := by
    rw [Nat.div_lt_iff_lt_mul hpos24]
    calc u < 16 ^ 32 := hu
      _ = 16 ^ 8 * 16 ^ 24 := by norm_num
  have hb : u / 16 ^ 20 % 16 ^ 4 < 16 ^ 4 := Nat.mod_lt _ (by positivity)
  have hc : u / 16 ^ 16 % 16 ^ 4 < 16 ^ 4 := Nat.mod_lt _ (by positivity)
  have hd : u / 16 ^ 12 % 16 ^ 4 < 16 ^ 4 := Nat.mod_lt _ (by positivity)
  have he : u % 16 ^ 12 < 16 ^ 12 := Nat.mod_lt _ (by positivity)
  have hlen : (uuidChars u).length = 36 := by
    simp [uuidChars, hexChars_length]
  have T8 : ∀ cs, takeHexAux 8 0 (hexChars 8 (u / 16 ^ 24) ++ cs) =
      some (0 * 16 ^ 8 + u / 16 ^ 24, cs) :=
    fun cs => takeHexAux_hexChars 8 _ 0 cs ha
  have T4b : ∀ cs, takeHexAux 4 0 (hexChars 4 (u / 16 ^ 20 % 16 ^ 4) ++ cs) =
      some (0 * 16 ^ 4 + u / 16 ^ 20 % 16 ^ 4, cs) :=
    fun cs => takeHexAux_hexChars 4 _ 0 cs hb
  have T4c : ∀ cs, takeHexAux 4 0 (hexChars 4 (u / 16 ^ 16 % 16 ^ 4) ++ cs) =
      some (0 * 16 ^ 4 + u / 16 ^ 16 % 16 ^ 4, cs) :=
    fun cs => takeHexAux_hexChars 4 _ 0 cs hc
  have T4d : ∀ cs, takeHexAux 4 0 (hexChars 4 (u / 16 ^ 12 % 16 ^ 4) ++ cs) =
      some (0 * 16 ^ 4 + u / 16 ^ 12 % 16 ^ 4, cs) :=
    fun cs => takeHexAux_hexChars 4 _ 0 cs hd
  have T12 : takeHexAux 12 0 (hexChars 12 (u % 16 ^ 12)) =
      some (0 * 16 ^ 12 + u % 16 ^ 12, []) := by
    conv_lhs => rw [← List.append_nil (hexChars 12 (u % 16 ^ 12))]
    exact takeHexAux_hexChars 12 _ 0 [] he
  have EC : ∀ r : List Char, expectChar (Char.ofNat 45) (Char.ofNat 45 :: r) = some r := by
    intro r
    simp [expectChar]
  unfold uuidToString Uuid.parse_str
  show uuidParseChars (uuidChars u) = some u
  unfold uuidParseChars
  rw [if_pos hlen]
  unfold uuidChars
  simp only [T8, T4b, T4c, T4d, T12, EC, List.isEmpty_nil, Nat.zero_mul, Nat.zero_add,
    reduceIte]
  rw [uuid_group_identity u]

/-- Stacking a bounded high part over a bounded low part stays within the
combined width. -/
theorem mul_pow_add_lt {x y m k : Nat} (hx : x < 16 ^ m) (hy : y < 16 ^ k) :
    x * 16 ^ k + y < 16 ^ (m + k) := by
  calc x * 16 ^ k + y < x * 16 ^ k + 16 ^ k := by omega
    _ = (x + 1) * 16 ^ k := by ring
    _ ≤ 16 ^ m * 16 ^ k := Nat.mul_le_mul_right _ (by omega)
    _ = 16 ^ (m + k) := (pow_add 16 m k).symm

/-- Every UUID value produced by the text parser is a 128-bit value. -/
theorem uuidParseChars_lt {cs : List Char} {u : Nat}
    (h : uuidParseChars cs = some u) : u < 16 ^ 32 := by
  unfold uuidParseChars at h
  by_cases h36 : cs.length = 36
  · rw [if_pos h36] at h
    cases h8 : takeHexAux 8 0 cs with
    | none => simp [h8] at h
    | some pr =>
      obtain ⟨a, r⟩ := pr
      simp only [h8] at h
      cases e1 : expectChar (Char.ofNat 45) r with
      | none => simp [e1] at h
      | some r1 =>
        simp only [e1] at h
        cases h4b : takeHexAux 4 0 r1 with
        | none => simp [h4b] at h
        | some pr =>
          obtain ⟨b, r2⟩ := pr
          simp only [h4b] at h
          cases e2 : expectChar (Char.ofNat 45) r2 with
          | none => simp [e2] at h
          | some r3 =>
            simp only [e2] at h
            cases h4c : takeHexAux 4 0 r3 with
            | none => simp [h4c] at h
            | some pr =>
              obtain ⟨c, r4⟩ := pr
              simp only [h4c] at h
              cases e3 : expectChar (Char.ofNat 45) r4 with
              | none => simp [e3] at h
              | some r5 =>
                simp only [e3] at h
                cases h4d : takeHexAux 4 0 r5 with
                | none => simp [h4d] at h
                | some pr =>
                  obtain ⟨d, r6⟩ := pr
                  simp only [h4d] at h
                  cases e4 : expectChar (Char.ofNat 45) r6 with
                  | none => simp [e4] at h
                  | some r7 =>
                    simp only [e4] at h
                    cases h12 : takeHexAux 12 0 r7 with
                    | none => simp [h12] at h
                    | some pr =>
                      obtain ⟨e, r8⟩ := pr
                      simp only [h12] at h
                      by_cases hemp : r8.isEmpty = true
                      · rw [if_pos hemp] at h
                        injection h with h
                        subst h
                        have ba : a < 16 ^ 8 := by
                          have := takeHexAux_lt 8 0 cs a r h8; simpa using this
                        have bb : b < 16 ^ 4 := by
                          have := takeHexAux_lt 4 0 r1 b r2 h4b; simpa using this
                        have bc : c < 16 ^ 4 := by
                          have := takeHexAux_lt 4 0 r3 c r4 h4c; simpa using this
                        have bd : d < 16 ^ 4 := by
                          have := takeHexAux_lt 4 0 r5 d r6 h4d; simpa using this
                        have be : e < 16 ^ 12 := by
                          have := takeHexAux_lt 12 0 r7 e r8 h12; simpa using this
                        have s1 : a * 16 ^ 4 + b < 16 ^ 12 := mul_pow_add_lt ba bb
                        have s2 : (a * 16 ^ 4 + b) * 16 ^ 4 + c < 16 ^ 16 :=
                          mul_pow_add_lt s1 bc
                        have s3 : ((a * 16 ^ 4 + b) * 16 ^ 4 + c) * 16 ^ 4 + d < 16 ^ 20 :=
                          mul_pow_add_lt s2 bd
                        exact mul_pow_add_lt s3 be
                      · rw [if_neg hemp] at h; cases h
  · rw [if_neg h36] at h
    by_cases h32 : cs.length = 32
    · rw [if_pos h32] at h
      cases hk : takeHexAux 32 0 cs with
      | none => simp [hk] at h
      | some pr =>
        obtain ⟨v, r⟩ := pr
        simp only [hk] at h
        cases r with
        | nil =>
          injection h with h
          subst h
          have := takeHexAux_lt 32 0 cs v [] hk
          simpa using this
        | cons c r => cases h
    · rw [if_neg h32] at h; cases h

/-- Every UUID value produced by Uuid.parse_str is a 128-bit value. -/
theorem uuidParse_lt {s : String} {u : Nat} (h : Uuid.parse_str s = some u) :
    u < 16 ^ 32 :=
  uuidParseChars_lt h

/-- Whether a character list starts with a decimal digit. -/
def headIsDigit : List Char → Bool
  | c :: _ => c.isDigit
  | [] => false

/-- Decoding inverts encoding on one decimal digit, and the encoded digit
is a digit character. -/
theorem decDigit_facts :
    ∀ d : Fin 10, digitVal (digitChar10 d.val) = d.val ∧
      (digitChar10 d.val).isDigit = true := by
  decide

/-- Every character produced by the decimal encoder is a digit. -/
theorem decCharsAux_digits :
    ∀ (fuel n : Nat), ∀ c ∈ decCharsAux fuel n, c.isDigit = true := by
  intro fuel
  induction fuel with
  | zero => intro n c hc; simp [decCharsAux] at hc
  | succ fuel ih =>
    intro n c hc
    unfold decCharsAux at hc
    by_cases h10 : n < 10
    · rw [if_pos h10] at hc
      simp at hc
      subst hc
      exact (decDigit_facts ⟨n, h10⟩).2
    · rw [if_neg h10] at hc
      rcases List.mem_append.mp hc with hl | hr
      · exact ih (n / 10) c hl
      · simp at hr
        subst hr
        exact (decDigit_facts ⟨n % 10, Nat.mod_lt _ (by omega)⟩).2

/-- The decimal encoder yields at least one character when the fuel
covers the number. -/
theorem decCharsAux_ne_nil (fuel n : Nat) (h : n < fuel) :
    decCharsAux fuel n ≠ [] := by
  cases fuel with
  | zero => omega
  | succ fuel =>
    unfold decCharsAux
    by_cases h10 : n < 10
    · rw [if_pos h10]; simp
    · rw [if_neg h10]; simp

/-- Folding the digit characters of n big-endian onto an accumulator
recovers n below the accumulator shifted past them. -/
theorem foldl_decCharsAux :
    ∀ (fuel n acc : Nat), n < fuel →
      List.foldl (fun a c => a * 10 + digitVal c) acc (decCharsAux fuel n) =
        acc * 10 ^ (decCharsAux fuel n).length + n := by
  intro fuel
  induction fuel with
  | zero => intro n acc h; omega
  | succ fuel ih =>
    intro n acc h
    unfold decCharsAux
    by_cases h10 : n < 10
    · rw [if_pos h10]
      simp only [List.foldl_cons, List.foldl_nil, List.length_singleton, pow_one,
        (decDigit_facts ⟨n, h10⟩).1]
    · rw [if_neg h10]
      have hrec : n / 10 < fuel := by omega
      rw [List.foldl_append, List.length_append]
      rw [ih (n / 10) acc hrec]
      simp only [List.foldl_cons, List.foldl_nil, List.length_singleton,
        (decDigit_facts ⟨n % 10, Nat.mod_lt _ (by omega)⟩).1]
      calc (acc * 10 ^ (decCharsAux fuel (n / 10)).length + n / 10) * 10 + n % 10
          = acc * (10 ^ (decCharsAux fuel (n / 10)).length * 10) +
              (10 * (n / 10) + n % 10) := by ring
        _ = acc * 10 ^ ((decCharsAux fuel (n / 10)).length + 1) + n := by
            rw [Nat.div_add_mod, pow_succ]

/-- Greedy digit folding walks through a digit-only prefix. -/
theorem takeNatAux_append :
    ∀ (ds : List Char), (∀ c ∈ ds, c.isDigit = true) →
      ∀ (rest : List Char) (acc : Nat),
        takeNatAux acc (ds ++ rest) =
          takeNatAux (List.foldl (fun a c => a * 10 + digitVal c) acc ds) rest := by
  intro ds
  induction ds with
  | nil => intro _ rest acc; rfl
  | cons c ds ih =>
    intro hds rest acc
    have hc : c.isDigit = true := hds c (by simp)
    simp only [List.cons_append, takeNatAux, hc, if_true, List.foldl_cons,
      List.append_eq]
    exact ih (fun x hx => hds x (by simp [hx])) rest (acc * 10 + digitVal c)

/-- Greedy digit folding stops at a non-digit head or at the end. -/
theorem takeNatAux_stop {rest : List Char} (h : headIsDigit rest = false) (acc : Nat) :
    takeNatAux acc rest = (acc, rest) := by
  cases rest with
  | nil => rfl
  | cons c cs =>
    have hc : c.isDigit = false := h
    simp [takeNatAux, hc]

/-- Every character of a zero-padded decimal rendering is a digit. -/
theorem padDec_digits (w n : Nat) : ∀ c ∈ padDec w n, c.isDigit = true := by
  intro c hc
  unfold padDec padZeros at hc
  rcases List.mem_append.mp hc with hl | hr
  · have := List.eq_of_mem_replicate hl
    subst this
    decide
  · exact decCharsAux_digits (n + 1) n c hr

/-- Folding from zero over a zero-padded decimal rendering recovers the
number. -/
theorem foldl_padDec (w n : Nat) :
    List.foldl (fun a c => a * 10 + digitVal c) 0 (padDec w n) = n := by
  unfold padDec padZeros
  rw [List.foldl_append]
  have hz : ∀ k, List.foldl (fun a c => a * 10 + digitVal c) 0
      (List.replicate k (Char.ofNat 48)) = 0 := by
    intro k
    induction k with
    | zero => rfl
    | succ k ih =>
      simp only [List.replicate_succ, List.foldl_cons]
      have : (0 : Nat) * 10 + digitVal (Char.ofNat 48) = 0 := by decide
      rw [this, ih]
  rw [hz]
  unfold decChars
  rw [foldl_decCharsAux (n + 1) n 0 (by omega)]
  simp

/-- Reading a number inverts the zero-padded decimal rendering whenever
the remainder does not begin with a digit. -/
theorem takeNat_padDec (w n : Nat) (rest : List Char)
    (hrest : headIsDigit rest = false) :
    takeNat (padDec w n ++ rest) = some (n, rest) := by
  cases hpd : padDec w n with
  | nil =>
    exfalso
    have h1 : padDec w n =
        List.replicate (w - (decChars n).length) (Char.ofNat 48) ++ decChars n := rfl
    rw [h1] at hpd
    exact decCharsAux_ne_nil (n + 1) n (by omega) (List.append_eq_nil.mp hpd).2
  | cons c cs =>
    have hc : c.isDigit = true := padDec_digits w n c (by rw [hpd]; simp)
    have key : takeNatAux 0 (padDec w n ++ rest) = (n, rest) := by
      rw [takeNatAux_append (padDec w n) (padDec_digits w n) rest 0, foldl_padDec]
      exact takeNatAux_stop hrest n
    rw [hpd] at key
    show takeNat ((c :: cs) ++ rest) = some (n, rest)
    simp only [List.cons_append] at key ⊢
    rw [show takeNat (c :: (cs ++ rest)) = some (takeNatAux 0 (c :: (cs ++ rest))) from by
      simp [takeNat, hc]]
    rw [key]

/-- Consuming one expected character succeeds exactly on that character. -/
theorem expectChar_cons (c : Char) (r : List Char) :
    expectChar c (c :: r) = some r := by
  simp [expectChar]

/-- Parsing inverts the RFC 3339 rendering of every timestamp. -/
theorem dateParse_dateChars (d : DateTimeLocal) :
    dateParseChars (dateChars d) = some d := by
  have h45 : ∀ xs : List Char, headIsDigit (Char.ofNat 45 :: xs) = false :=
    fun _ => show (Char.ofNat 45).isDigit = false by decide
  have h84 : ∀ xs : List Char, headIsDigit (Char.ofNat 84 :: xs) = false :=
    fun _ => show (Char.ofNat 84).isDigit = false by decide
  have h58 : ∀ xs : List Char, headIsDigit (Char.ofNat 58 :: xs) = false :=
    fun _ => show (Char.ofNat 58).isDigit = false by decide
  have h43 : ∀ xs : List Char, headIsDigit (Char.ofNat 43 :: xs) = false :=
    fun _ => show (Char.ofNat 43).isDigit = false by decide
  have h46 : ∀ xs : List Char, headIsDigit (Char.ofNat 46 :: xs) = false :=
    fun _ => show (Char.ofNat 46).isDigit = false by decide
  have hne1 : ¬(Char.ofNat 45 = Char.ofNat 43) := by decide
  have hne2 : ¬(Char.ofNat 43 = Char.ofNat 45) := by decide
  have TL : takeNat (padDec 2 (d.offsetMinutes.natAbs % 60)) =
      some (d.offsetMinutes.natAbs % 60, []) := by
    conv_lhs => rw [← List.append_nil (padDec 2 (d.offsetMinutes.natAbs % 60))]
    exact takeNat_padDec _ _ [] rfl
  have harith :
      d.offsetMinutes.natAbs / 60 * 60 + d.offsetMinutes.natAbs % 60 =
        d.offsetMinutes.natAbs := by omega
  by_cases hm : d.offsetMinutes < 0
  · simp only [dateParseChars, dateChars, offsetChars, if_pos hm, takeNat_padDec,
      expectChar_cons, h45, h84, h58, h46, h43, TL, List.isEmpty_nil, hne1,
      eq_self_iff_true, or_true, true_or, if_true, or_false, false_or, if_false,
      reduceIte]
    have : (-1 : Int) *
        ((d.offsetMinutes.natAbs / 60 * 60 + d.offsetMinutes.natAbs % 60 : Nat) : Int) =
          d.offsetMinutes := by
      rw [harith]
      omega
    rw [this]
  · simp only [dateParseChars, dateChars, offsetChars, if_neg hm, takeNat_padDec,
      expectChar_cons, h45, h84, h58, h46, h43, TL, List.isEmpty_nil, hne2,
      eq_self_iff_true, or_true, true_or, if_true, or_false, false_or, if_false,
      reduceIte]
    have : (1 : Int) *
        ((d.offsetMinutes.natAbs / 60 * 60 + d.offsetMinutes.natAbs % 60 : Nat) : Int) =
          d.offsetMinutes := by
      rw [harith]
      omega
    rw [this]

/-- Parsing inverts the RFC 3339 string rendering of every timestamp. -/
theorem dateFromString_toRfc3339 (d : DateTimeLocal) :
    dateFromString (DateTimeLocal.toRfc3339 d) = some d :=
  dateParse_dateChars d

/-- The content hash digest is a 64-bit value. -/
theorem stringHash64_lt (s : String) : stringHash64 s < 2 ^ 64 := by
  unfold stringHash64
  have inv : ∀ (cs : List Char) (a : Nat), a < 2 ^ 64 →
      List.foldl (fun h c => (h * 1099511628211 + c.toNat) % 2 ^ 64) a cs < 2 ^ 64 := by
    intro cs
    induction cs with
    | nil => intro a ha; exact ha
    | cons c cs ih =>
      intro a _
      exact ih _ (Nat.mod_lt _ (by norm_num))
  exact inv s.data 14695981039346656037 (by norm_num)

/-- Both identifiers of a parsed node edge point are 128-bit values. -/
theorem nep_from_value_bounds {value : Json} {p : NodeEdgePoint}
    (h : NodeEdgePoint.from_value value = .ok p) :
    p.node_edge_point_uuid < 16 ^ 32 ∧ p.node_uuid < 16 ^ 32 := by
  unfold NodeEdgePoint.from_value at h
  cases h1 : Uuid.parse_str (((Json.get value "node-edge-point-uuid").bind
      Json.as_str).getD "") with
  | none => simp [h1] at h
  | some u1 =>
    simp only [h1] at h
    cases h2 : Uuid.parse_str (((Json.get value "node-uuid").bind Json.as_str).getD "") with
    | none => simp [h2] at h
    | some u2 =>
      simp only [h2] at h
      cases h
      exact ⟨uuidParse_lt h1, uuidParse_lt h2⟩

/-- Every element produced by the element loop has 128-bit identifiers. -/
theorem linkMapNEP_bounds :
    ∀ (xs : List Json) (ps : List NodeEdgePoint), linkMapNEP xs = .ok ps →
      ∀ p ∈ ps, p.node_edge_point_uuid < 16 ^ 32 ∧ p.node_uuid < 16 ^ 32 := by
  intro xs
  induction xs with
  | nil =>
    intro ps h p hp
    simp only [linkMapNEP] at h
    cases h
    simp at hp
  | cons x xs ih =>
    intro ps h p hp
    unfold linkMapNEP at h
    cases h1 : NodeEdgePoint.from_value x with
    | error e => simp [h1] at h
    | ok q =>
      simp only [h1] at h
      cases h2 : linkMapNEP xs with
      | error e => simp [h2] at h
      | ok qs =>
        simp only [h2] at h
        cases h
        rcases List.mem_cons.mp hp with hq | hqs
        · subst hq; exact nep_from_value_bounds h1
        · exact ih qs h2 p hqs

/-- Deserialization inverts serialization on every node edge point with
128-bit identifiers. -/
theorem nep_fromJson_toJson (p : NodeEdgePoint)
    (h1 : p.node_edge_point_uuid < 16 ^ 32) (h2 : p.node_uuid < 16 ^ 32) :
    NodeEdgePoint.fromJson (NodeEdgePoint.toJson p) = some p := by
  have g1 : Json.get (NodeEdgePoint.toJson p) "node-edge-point-uuid" =
      some (.str (uuidToString p.node_edge_point_uuid)) := rfl
  have g2 : Json.get (NodeEdgePoint.toJson p) "node-uuid" =
      some (.str (uuidToString p.node_uuid)) := rfl
  unfold NodeEdgePoint.fromJson
  simp only [g1, g2, Option.some_bind, Json.as_str,
    uuidParse_uuidToString h1, uuidParse_uuidToString h2]

/-- Element-wise deserialization inverts element-wise serialization. -/
theorem mapNEPfromJson_map (ps : List NodeEdgePoint)
    (hb : ∀ p ∈ ps, p.node_edge_point_uuid < 16 ^ 32 ∧ p.node_uuid < 16 ^ 32) :
    mapNEPfromJson (ps.map NodeEdgePoint.toJson) = some ps := by
  induction ps with
  | nil => rfl
  | cons p ps ih =>
    have hp := hb p (by simp)
    simp only [List.map_cons, mapNEPfromJson, nep_fromJson_toJson p hp.1 hp.2,
      ih (fun q hq => hb q (by simp [hq]))]

/-- C5: every link record produced by a successful parse serializes to
JSON under the external key names and deserializes back to a record equal
to the original in every field, the content hash and the creation
timestamp included. -/
theorem link_roundtrip (v : Json) (h : String) (now : DateTimeLocal) (l : Link)
    (hp : Link.from_value v h now = .ok l) :
    Link.fromJson (Link.toJson l) = some l := by
  obtain ⟨hh, hd, hhash, hu, xs, hx, hm⟩ := link_from_value_ok_elim hp
  have hub : l.uuid < 16 ^ 32 := uuidParse_lt hu
  have hnb := linkMapNEP_bounds xs l.node_edge_points hm
  have hhb : l.hash < 2 ^ 64 := by rw [hhash]; exact stringHash64_lt _
  have g1 : Json.get (Link.toJson l) "host" = some (.str l.host) := rfl
  have g2 : Json.get (Link.toJson l) "node-edge-point" =
      some (.arr (l.node_edge_points.map NodeEdgePoint.toJson)) := rfl
  have g3 : Json.get (Link.toJson l) "uuid" = some (.str (uuidToString l.uuid)) := rfl
  have g4 : Json.get (Link.toJson l) "hash" = some (.num (l.hash : Int)) := rfl
  have g5 : Json.get (Link.toJson l) "date" =
      some (.str (DateTimeLocal.toRfc3339 l.date)) := rfl
  have hu64 : Json.as_u64 (.num (l.hash : Int)) = some l.hash := by
    simp only [Json.as_u64]
    rw [if_pos ⟨Int.natCast_nonneg _, by exact_mod_cast hhb⟩]
    simp
  have hbind : (some (Json.num (l.hash : Int))).bind Json.as_u64 = some l.hash := by
    rw [Option.some_bind]
    exact hu64
  unfold Link.fromJson
  rw [g1]
  simp only [Option.some_bind, Json.as_str]
  rw [g2]
  simp only [Option.some_bind, Json.as_array]
  rw [mapNEPfromJson_map l.node_edge_points hnb]
  rw [g3]
  simp only [Option.some_bind, Json.as_str]
  rw [uuidParse_uuidToString hub]
  rw [g4, hbind]
  rw [g5]
  simp only [Option.some_bind, Json.as_str]
  rw [dateFromString_toRfc3339]

/-- Witness for C5: the spec scenario input parses to a concrete record
whose serialization deserializes back to the same record. -/
theorem link_roundtrip_witness :
    Link.from_value linkInput1 "h" dateZero = .ok linkRec1 ∧
      Link.fromJson (Link.toJson linkRec1) = some linkRec1 :=
  ⟨rfl, link_roundtrip linkInput1 "h" dateZero linkRec1 rfl⟩

end DeviceManager
